import Mathlib

/-!
Verification of the loss-computation core of the DenseSeg repository
(file `src/training/forward_func.py`).

Shallow embedding conventions:
* A float tensor entry is modelled as `Option ℚ`: `none` is the IEEE NaN
  marker (the "invalid" marker of the spec), `some q` an ordinary value.
  Arithmetic on such entries is NaN-propagating (`fAdd`, `liftLoss`).
* Tensors are total functions from their indices; the shape
  `(B, C, 2, H, W)` is carried as explicit `Nat` parameters, and theorems
  quantify over the in-range indices.
* The elementwise base loss (`loss_fn` with `reduction` set to none) is an
  abstract function `ℚ → ℚ → ℚ` applied entrywise.
* Python `assert` failures and the unbound-local failure of `forward` are
  modelled with `Except String`.
* The real-valued, square-root / exponential based computations
  (`total_variation`, the Gaussian heatmap synthesis) are embedded over `ℝ`.
-/

namespace DenseSeg

/-- A float value: `none` models NaN (the invalid marker). -/
abbrev F := Option ℚ

/-- NaN-propagating addition of float values (IEEE semantics). -/
def fAdd (a b : F) : F :=
  match a, b with
  | some x, some y => some (x + y)
  | _, _ => none

/-- `fSum n f` is `f 0 + f 1 + ... + f (n-1)` with NaN propagation:
the model of `torch.sum` over a dimension of size `n`. -/
def fSum : Nat → (Nat → F) → F
  | 0, _ => some 0
  | n + 1, f => fAdd (fSum n f) (f n)

/-- Division of a float value by a natural number (tensor / count). -/
def fDiv (a : F) (d : Nat) : F := a.map (fun x => x / (d : ℚ))

/-- Apply the elementwise base loss, propagating NaN inputs. -/
def liftLoss (ℓ : ℚ → ℚ → ℚ) (a b : F) : F :=
  match a, b with
  | some x, some y => some (ℓ x y)
  | _, _ => none

/-- Natural-number valued sum, used to model boolean `.sum()` counts. -/
def nsum : Nat → (Nat → Nat) → Nat
  | 0, _ => 0
  | n + 1, f => nsum n f + f n

/-- Row-major flattening of the trailing `(2, H, W)` axes of a
`(B, C, 2, H, W)` tensor: the model of `flatten(start_dim=2)`.
The flat index `k < 2 * (H * W)` decodes to
`(k / (H * W), k % (H * W) / W, k % (H * W) % W)`. -/
def flatIdx (H W : Nat) (t : Nat → Nat → Nat → Nat → Nat → F) (b c k : Nat) : F :=
  t b c (k / (H * W)) (k % (H * W) / W) (k % (H * W) % W)

/-- Model of `uv.isnan().all()` on a `(B, C, 2, H, W)` tensor. -/
def allNaN (B C H W : Nat) (uv : Nat → Nat → Nat → Nat → Nat → F) : Bool :=
  (List.range B).all fun b => (List.range C).all fun c => (List.range 2).all fun u =>
    (List.range H).all fun y => (List.range W).all fun x => (uv b c u y x).isNone

/-- Model of `uv.isnan().any()` on a `(B, C, 2, H, W)` tensor. -/
def anyNaN (B C H W : Nat) (uv : Nat → Nat → Nat → Nat → Nat → F) : Bool :=
  (List.range B).any fun b => (List.range C).any fun c => (List.range 2).any fun u =>
    (List.range H).any fun y => (List.range W).any fun x => (uv b c u y x).isNone

/-- The `(B, C)`-shaped value computed by `balanced_normalized_uv_loss`
(`forward_func.py`, lines 118-132): flatten the trailing dims, zero out both
tensors at ground-truth NaN positions, apply the elementwise base loss, sum
the flat dimension and divide by (number of valid pixels + 1). -/
def balanced_value (H W : Nat) (loss_fn : ℚ → ℚ → ℚ)
    (uv_hat uv : Nat → Nat → Nat → Nat → Nat → F) : Nat → Nat → F :=
  fun b c =>
    let uv_hat_flat : Nat → F := fun k => flatIdx H W uv_hat b c k
    let uv_flat : Nat → F := fun k => flatIdx H W uv b c k
    let nan_gt_mask : Nat → Bool := fun k => (uv_flat k).isNone
    let uv_flat_z : Nat → F := fun k => if nan_gt_mask k then some 0 else uv_flat k
    let uv_hat_flat_z : Nat → F := fun k => if nan_gt_mask k then some 0 else uv_hat_flat k
    let valid_pxl : Nat := nsum (2 * (H * W)) (fun k => if nan_gt_mask k then 0 else 1)
    fDiv (fSum (2 * (H * W)) (fun k => liftLoss loss_fn (uv_hat_flat_z k) (uv_flat_z k)))
      (valid_pxl + 1)

/-- `balanced_normalized_uv_loss` (`forward_func.py`, lines 106-132),
including its assertion that the ground truth is not entirely NaN. -/
def balanced_normalized_uv_loss (B C H W : Nat) (loss_fn : ℚ → ℚ → ℚ)
    (uv_hat uv : Nat → Nat → Nat → Nat → Nat → F) : Except String (Nat → Nat → F) :=
  if allNaN B C H W uv then Except.error "uv must contain some valid values"
  else Except.ok (balanced_value H W loss_fn uv_hat uv)

/-- Reference computation of the dense UV regression loss, written from the
spec: positions where the ground-truth value is the NaN marker are set to
zero in both prediction and target, the elementwise base loss is applied,
summed over the spatial/coordinate dimensions, and divided by
(count of valid elements + 1). -/
def spec_dense_uv_loss (H W : Nat) (loss_fn : ℚ → ℚ → ℚ)
    (uv_hat uv : Nat → Nat → Nat → Nat → Nat → F) (b c : Nat) : F :=
  let invalid : Nat → Nat → Nat → Bool := fun u y x => (uv b c u y x).isNone
  let t : Nat → Nat → Nat → F := fun u y x =>
    if invalid u y x then some 0 else uv b c u y x
  let p : Nat → Nat → Nat → F := fun u y x =>
    if invalid u y x then some 0 else uv_hat b c u y x
  let validCount : Nat :=
    nsum 2 (fun u => nsum H (fun y => nsum W (fun x => if invalid u y x then 0 else 1)))
  fDiv (fSum 2 (fun u => fSum H (fun y => fSum W (fun x =>
      liftLoss loss_fn (p u y x) (t u y x))))) (validCount + 1)

/-- The plain elementwise loss on unmodified inputs (no zeroing step),
summed over the spatial/coordinate dimensions and divided by the
all-valid denominator `2 * H * W + 1`. -/
def spec_plain_uv_loss (H W : Nat) (loss_fn : ℚ → ℚ → ℚ)
    (uv_hat uv : Nat → Nat → Nat → Nat → Nat → F) (b c : Nat) : F :=
  fDiv (fSum 2 (fun u => fSum H (fun y => fSum W (fun x =>
      liftLoss loss_fn (uv_hat b c u y x) (uv b c u y x))))) (2 * (H * W) + 1)

/-- Kornia `normalize_pixel_coordinates` with align-corners semantics:
pixel `(x, y)` maps to `(2 x / (W - 1) - 1, 2 y / (H - 1) - 1)`. -/
def norm_lm (H W : Nat) (p : ℚ × ℚ) : ℚ × ℚ :=
  (2 * p.1 / ((W : ℚ) - 1) - 1, 2 * p.2 / ((H : ℚ) - 1) - 1)

/-- The per-landmark mask `(sample_point < -1) | (sample_point > 1)` reduced
with `any` over the coordinate axis (`forward_func.py`, lines 48-49). -/
def outsideB (s : ℚ × ℚ) : Bool :=
  decide (s.1 < -1) || decide (s.1 > 1) || decide (s.2 < -1) || decide (s.2 > 1)

/-- Bilinear `F.grid_sample` with `align_corners=True` and zero padding, on a
single `(H, W)` channel, at the normalized grid point `g = (gx, gy)`:
the source pixel position is `((gx + 1) / 2 * (W - 1), (gy + 1) / 2 * (H - 1))`
and the four surrounding pixels are blended, out-of-range pixels reading 0. -/
def gsample (H W : Nat) (img : Nat → Nat → ℚ) (g : ℚ × ℚ) : ℚ :=
  let ix : ℚ := (g.1 + 1) / 2 * ((W : ℚ) - 1)
  let iy : ℚ := (g.2 + 1) / 2 * ((H : ℚ) - 1)
  let x0 : ℤ := Rat.floor ix
  let y0 : ℤ := Rat.floor iy
  let wx : ℚ := ix - (x0 : ℚ)
  let wy : ℚ := iy - (y0 : ℚ)
  let pix : ℤ → ℤ → ℚ := fun yy xx =>
    if 0 ≤ xx ∧ xx < (W : ℤ) ∧ 0 ≤ yy ∧ yy < (H : ℤ) then img yy.toNat xx.toNat else 0
  (1 - wx) * (1 - wy) * pix y0 x0 + wx * (1 - wy) * pix y0 (x0 + 1) +
    (1 - wx) * wy * pix (y0 + 1) x0 + wx * wy * pix (y0 + 1) (x0 + 1)

/-- A per-class ground-truth landmark UV table: the landmark count `N_c` of
the class together with the UV value pair of each of its landmarks.  The
entries are `F`-valued so that invalid (NaN) markers can be expressed. -/
abbrev LmUV := Nat × (Nat → F × F)

/-- Cumulative start index of class `c` in the flat landmark axis
(the model of `anatomy_idx = cumsum([0, N_0, ...])`). -/
def classStart (lmuv : List LmUV) (c : Nat) : Nat :=
  ((lmuv.take c).map Prod.fst).sum

/-- Landmark count `N_c` of class `c`. -/
def classCount (lmuv : List LmUV) (c : Nat) : Nat :=
  (lmuv.getD c (0, fun _ => (some 0, some 0))).1

/-- Ground-truth UV values of class `c`. -/
def classVals (lmuv : List LmUV) (c : Nat) : Nat → F × F :=
  (lmuv.getD c (0, fun _ => (some 0, some 0))).2

/-- Model of `outside_mask.all()` for class data starting at `start` with
`nc` landmarks: every landmark of every batch element is out of range. -/
def lm_class_allOutside (B H W : Nat) (lm : Nat → Nat → ℚ × ℚ) (start nc : Nat) : Bool :=
  (List.range B).all fun b => (List.range nc).all fun n =>
    outsideB (norm_lm H W (lm b (start + n)))

/-- The `(B, C)`-shaped value computed by `landmark_uv_loss`
(`forward_func.py`, lines 35-63).  Per class `c`: slice the class landmark
range, normalize the coordinates, skip the class (leaving the zero
initialization) when every landmark is out of the normalized range; otherwise
sample the predicted map bilinearly at the normalized points, overwrite both
predicted and ground-truth UV values with 0 at out-of-range landmarks, apply
the elementwise base loss and take the mean over the landmark and coordinate
dimensions (`.mean([1, 2])`, i.e. divide by `N_c * 2`).
The number of classes `C` is the length of the ground-truth table; the
class dimension of the prediction matches at the call site. -/
def landmark_loss_value (B H W : Nat) (uv : Nat → Nat → Nat → Nat → Nat → F)
    (lm : Nat → Nat → ℚ × ℚ) (lmuv : List LmUV) (ℓ : ℚ → ℚ → ℚ) : Nat → Nat → F :=
  fun b c =>
    if c < lmuv.length then
      let start := classStart lmuv c
      let nc := classCount lmuv c
      if lm_class_allOutside B H W lm start nc then some 0
      else
        let spt : Nat → ℚ × ℚ := fun n => norm_lm H W (lm b (start + n))
        -- after the NaN assertion the prediction holds plain values
        let img : Nat → Nat → Nat → ℚ := fun u y x => (uv b c u y x).getD 0
        let uv_values_hat : Nat → ℚ × ℚ := fun n =>
          (gsample H W (img 0) (spt n), gsample H W (img 1) (spt n))
        let hatZ : Nat → ℚ × ℚ := fun n =>
          if outsideB (spt n) then (0, 0) else uv_values_hat n
        let gtZ : Nat → F × F := fun n =>
          if outsideB (spt n) then (some 0, some 0) else classVals lmuv c n
        fDiv (fSum nc (fun n =>
            fAdd (liftLoss ℓ (some (hatZ n).1) (gtZ n).1)
              (liftLoss ℓ (some (hatZ n).2) (gtZ n).2))) (nc * 2)
    else some 0

/-- `landmark_uv_loss` (`forward_func.py`, lines 22-63), including its
assertion that the predicted uv maps contain no NaN values (line 33).
The base-loss reduction assertion (line 32) is captured by `ℓ` being an
abstract elementwise function. -/
def landmark_uv_loss (B H W : Nat) (uv : Nat → Nat → Nat → Nat → Nat → F)
    (lm : Nat → Nat → ℚ × ℚ) (lmuv : List LmUV) (ℓ : ℚ → ℚ → ℚ) :
    Except String (Nat → Nat → F) :=
  if anyNaN B lmuv.length H W uv then Except.error "uv should not contain NaN values"
  else Except.ok (landmark_loss_value B H W uv lm lmuv ℓ)

/-- The sparse landmark loss as claim C3 states it: same masking, but the
per-class value normalized by (count of valid elements + 1), where the valid
elements are the two coordinate entries of each in-range landmark. -/
def claimed_landmark_loss (B H W : Nat) (uv : Nat → Nat → Nat → Nat → Nat → F)
    (lm : Nat → Nat → ℚ × ℚ) (lmuv : List LmUV) (ℓ : ℚ → ℚ → ℚ) : Nat → Nat → F :=
  fun b c =>
    if c < lmuv.length then
      let start := classStart lmuv c
      let nc := classCount lmuv c
      if lm_class_allOutside B H W lm start nc then some 0
      else
        let spt : Nat → ℚ × ℚ := fun n => norm_lm H W (lm b (start + n))
        let img : Nat → Nat → Nat → ℚ := fun u y x => (uv b c u y x).getD 0
        let uv_values_hat : Nat → ℚ × ℚ := fun n =>
          (gsample H W (img 0) (spt n), gsample H W (img 1) (spt n))
        let hatZ : Nat → ℚ × ℚ := fun n =>
          if outsideB (spt n) then (0, 0) else uv_values_hat n
        let gtZ : Nat → F × F := fun n =>
          if outsideB (spt n) then (some 0, some 0) else classVals lmuv c n
        let validElems : Nat := nsum nc (fun n => if outsideB (spt n) then 0 else 2)
        fDiv (fSum nc (fun n =>
            fAdd (liftLoss ℓ (some (hatZ n).1) (gtZ n).1)
              (liftLoss ℓ (some (hatZ n).2) (gtZ n).2))) (validElems + 1)
    else some 0

/-- The sparse landmark loss as amended: out-of-range landmarks contribute
zeroed values to both prediction and target, and the per-class value is the
plain mean over the landmark and coordinate dimensions — the elementwise
losses summed over both coordinates of every landmark, divided by `2 * N_c`
with no valid-count renormalization (the all-out-of-range case being handled
by the skip that leaves the zero initialization). -/
def amended_landmark_loss (B H W : Nat) (uv : Nat → Nat → Nat → Nat → Nat → F)
    (lm : Nat → Nat → ℚ × ℚ) (lmuv : List LmUV) (ℓ : ℚ → ℚ → ℚ) : Nat → Nat → F :=
  fun b c =>
    if c < lmuv.length then
      let start := classStart lmuv c
      let nc := classCount lmuv c
      if lm_class_allOutside B H W lm start nc then some 0
      else
        let spt : Nat → ℚ × ℚ := fun n => norm_lm H W (lm b (start + n))
        let img : Nat → Nat → Nat → ℚ := fun u y x => (uv b c u y x).getD 0
        let pred : Nat → Nat → F := fun n u =>
          if outsideB (spt n) then some 0
          else some (gsample H W (img u) (spt n))
        let target : Nat → Nat → F := fun n u =>
          if outsideB (spt n) then some 0
          else if u = 0 then (classVals lmuv c n).1 else (classVals lmuv c n).2
        fDiv (fSum nc (fun n => fSum 2 (fun u => liftLoss ℓ (pred n u) (target n u))))
          (2 * nc)
    else some 0

/-- The per-batch loss composition of `forward` (`forward_func.py`,
lines 172 and 199-210), applied to the already-reduced per-loss mean values.
`assert any(lambdas)` is the leading guard; each per-loss value is replaced
by `0` when its weight is zero (the Python `... if lambda else 0` skips);
an unrecognized supervision string leaves `uv_loss` unassigned, so the line
`loss = lambda_bce * bce_loss + uv_loss` fails with an unbound-local error. -/
def forward_loss (supervision : String) (lambda_bce lambda_reg_uv lambda_tv : ℚ)
    (bce_val reg_val lm_val tv_val : ℚ) : Except String ℚ :=
  if lambda_bce = 0 ∧ lambda_reg_uv = 0 ∧ lambda_tv = 0 then
    Except.error "At least one weighting for loss must be non-zero"
  else
    let bce_loss := if lambda_bce ≠ 0 then bce_val else 0
    let reg_loss := if lambda_reg_uv ≠ 0 then reg_val else 0
    let lm_loss := if lambda_reg_uv ≠ 0 then lm_val else 0
    let tv_loss := if lambda_tv ≠ 0 then tv_val else 0
    if supervision = "dense" then
      Except.ok (lambda_bce * bce_loss + (lambda_reg_uv * (reg_loss + lm_loss) / 2 + lambda_tv * tv_loss))
    else if supervision = "sparse" then
      Except.ok (lambda_bce * bce_loss + (lambda_reg_uv * lm_loss + lambda_tv * tv_loss))
    else
      Except.error "UnboundLocalError: local variable referenced before assignment"

/-- First-order gradient of a 1-D signal of length `n` at position `i`
(`torch.gradient` with `edge_order=1`, unit spacing): one-sided differences
at the two edges, central differences in the interior.  Faithful for `n ≥ 2`
(for smaller sizes the source raises). -/
noncomputable def tgrad (n : Nat) (f : Nat → ℝ) (i : Nat) : ℝ :=
  if i = 0 then f 1 - f 0
  else if i = n - 1 then f (n - 1) - f (n - 2)
  else (f (i + 1) - f (i - 1)) / 2

/-- `total_variation` (`forward_func.py`, lines 135-157), one `(b, c)` entry:
spatial gradients of the uv maps along both spatial axes, Euclidean norm
across the 2-element gradient-direction axis, mean across the 2-element UV
axis, zero outside the mask, square, sum spatially, divide by
(count of masked pixels + 1).  The shape/dtype assertions of the source are
carried by the types of the embedding. -/
noncomputable def total_variation (H W : Nat) (uv : Nat → Nat → Nat → Nat → Nat → ℝ)
    (mask : Nat → Nat → Nat → Nat → Bool) (b c : Nat) : ℝ :=
  let gy : Nat → Nat → Nat → ℝ := fun u y x => tgrad H (fun t => uv b c u t x) y
  let gx : Nat → Nat → Nat → ℝ := fun u y x => tgrad W (fun t => uv b c u y t) x
  let tvn : Nat → Nat → Nat → ℝ := fun u y x => Real.sqrt ((gy u y x) ^ 2 + (gx u y x) ^ 2)
  let tvm : Nat → Nat → ℝ := fun y x => (tvn 0 y x + tvn 1 y x) / 2
  let tvz : Nat → Nat → ℝ := fun y x => if mask b c y x then tvm y x else 0
  (∑ y ∈ Finset.range H, ∑ x ∈ Finset.range W, (tvz y x) ^ 2) /
    (((∑ y ∈ Finset.range H, ∑ x ∈ Finset.range W, (if mask b c y x then 1 else 0) : ℕ) : ℝ) + 1)

/-- Reference total-variation computation written from the spec: compute the
first-order spatial gradient along both spatial axes, take the norm across
the 2-element gradient-direction axis, then the mean across the 2-element UV
axis, square the result, zero it outside the segmentation mask, sum
spatially, divide by (count of masked pixels + 1). -/
noncomputable def spec_total_variation (H W : Nat) (uv : Nat → Nat → Nat → Nat → Nat → ℝ)
    (mask : Nat → Nat → Nat → Nat → Bool) (b c : Nat) : ℝ :=
  let gradNorm : Nat → Nat → Nat → ℝ := fun u y x =>
    Real.sqrt ((tgrad H (fun t => uv b c u t x) y) ^ 2 + (tgrad W (fun t => uv b c u y t) x) ^ 2)
  let uvMean : Nat → Nat → ℝ := fun y x => (gradNorm 0 y x + gradNorm 1 y x) / 2
  let squared : Nat → Nat → ℝ := fun y x => (uvMean y x) ^ 2
  let zeroed : Nat → Nat → ℝ := fun y x => if mask b c y x then squared y x else 0
  (∑ y ∈ Finset.range H, ∑ x ∈ Finset.range W, zeroed y x) /
    (((∑ y ∈ Finset.range H, ∑ x ∈ Finset.range W, (if mask b c y x then 1 else 0) : ℕ) : ℝ) + 1)

/-- The ground-truth Gaussian heatmap built by `forward_heatmap`
(`forward_func.py`, lines 274-281) and identically by
`forward_heatmap_and_seg` (lines 350-357), before the final
`view(B, N, H, W)`: the flat spatial position `p` of the `meshgrid`
with xy indexing holds the pixel `(p % W, p / W)`, and the channel of
landmark `n` holds `alpha * exp(-squared distance / (2 * std_pixel ^ 2))`. -/
noncomputable def heatmap_flat (W : Nat) (lm : Nat → Nat → ℝ × ℝ) (alpha std : ℝ)
    (b n p : Nat) : ℝ :=
  let gx : ℝ := ((p % W : Nat) : ℝ)
  let gy : ℝ := ((p / W : Nat) : ℝ)
  alpha * Real.exp (-((gx - (lm b n).1) ^ 2 + (gy - (lm b n).2) ^ 2) / (2 * std ^ 2))

/-- The synthesized heatmap after `view(B, N, H, W)`: pixel `(y, x)` of
channel `n` reads the flat position `y * W + x`. -/
noncomputable def heatmap_gt (W : Nat) (lm : Nat → Nat → ℝ × ℝ) (alpha std : ℝ)
    (b n y x : Nat) : ℝ :=
  heatmap_flat W lm alpha std b n (y * W + x)

/-- Squared-difference base loss (MSE with no reduction), used as a concrete
elementwise loss in witnesses and counterexamples. -/
def sqLoss (a b : ℚ) : ℚ := (a - b) ^ 2

/-- Concrete all-zero (NaN-free) predicted uv map. -/
def exUV0 : Nat → Nat → Nat → Nat → Nat → F := fun _ _ _ _ _ => some 0

/-- Concrete predicted uv map holding a NaN marker. -/
def exUVN : Nat → Nat → Nat → Nat → Nat → F := fun _ _ _ _ _ => none

/-- Concrete landmark set: landmark 0 at pixel `(0, 0)` (normalized to
`(-1, -1)`, in range), landmark 1 at `(-5, -5)` (normalized out of range). -/
def exLM3 : Nat → Nat → ℚ × ℚ := fun _ n => if n = 0 then (0, 0) else (-5, -5)

/-- Concrete landmark set placing every landmark at pixel `(0, 0)`. -/
def exLM0 : Nat → Nat → ℚ × ℚ := fun _ _ => (0, 0)

/-- Concrete landmark set placing every landmark out of range. -/
def exLMOut : Nat → Nat → ℚ × ℚ := fun _ _ => (-5, -5)

/-- Concrete single-class ground-truth UV table with two landmarks, the
second of which will be masked out of range by `exLM3`. -/
def exTable3 : List LmUV := [(2, fun n => if n = 0 then (some 1, some 1) else (some 5, some 5))]

/-- Concrete single-class, single-landmark, NaN-free ground-truth UV table. -/
def exTable0 : List LmUV := [(1, fun _ => (some 0, some 0))]

/-- Concrete ground-truth UV table containing an invalid (NaN) marker. -/
def exTableN : List LmUV := [(1, fun _ => (none, some 0))]

/-- Concrete landmark coordinate function used by the heatmap witness. -/
noncomputable def exHeatLM (v : ℝ) : Nat → Nat → ℝ × ℝ := fun _ _ => (v, 0)

/- ------------------------------------------------------------------ -/
/- Helper lemmas on the float-value monoid and the index decodings.   -/
/- ------------------------------------------------------------------ -/

theorem fAdd_assoc (a b c : F) : fAdd (fAdd a b) c = fAdd a (fAdd b c) := by
  cases a <;> cases b <;> cases c <;> simp [fAdd, add_assoc]

theorem fAdd_zero_left (a : F) : fAdd (some 0) a = a := by
  cases a <;> simp [fAdd]

theorem fAdd_zero_right (a : F) : fAdd a (some 0) = a := by
  cases a <;> simp [fAdd]

theorem fSum_congrOn {n : Nat} {f g : Nat → F} (h : ∀ k < n, f k = g k) :
    fSum n f = fSum n g := by
  induction n with
  | zero => rfl
  | succ n ih =>
      simp only [fSum]
      rw [ih (fun k hk => h k (Nat.lt_succ_of_lt hk)), h n (Nat.lt_succ_self n)]

theorem fSum_add (a b : Nat) (f : Nat → F) :
    fSum (a + b) f = fAdd (fSum a f) (fSum b (fun j => f (a + j))) := by
  induction b with
  | zero => simp [fSum, fAdd_zero_right]
  | succ b ih =>
      rw [Nat.add_succ]
      simp only [fSum]
      rw [ih, fAdd_assoc]

theorem fSum_mul_decode (m n : Nat) (g : Nat → Nat → F) :
    fSum (m * n) (fun k => g (k / n) (k % n)) = fSum m (fun i => fSum n (g i)) := by
  induction m with
  | zero => simp [fSum]
  | succ m ih =>
      rw [Nat.succ_mul, fSum_add, ih]
      have h2 : fSum n (fun j => g ((m * n + j) / n) ((m * n + j) % n)) = fSum n (g m) := by
        refine fSum_congrOn (fun j hj => ?_)
        have hn : 0 < n := lt_of_le_of_lt (Nat.zero_le j) hj
        have hd : (m * n + j) / n = m := by
          rw [Nat.add_comm, Nat.mul_comm, Nat.add_mul_div_left _ _ hn,
            Nat.div_eq_of_lt hj, Nat.zero_add]
        have hm : (m * n + j) % n = j := by
          rw [Nat.add_comm, Nat.mul_comm, Nat.add_mul_mod_self_left, Nat.mod_eq_of_lt hj]
        rw [hd, hm]
      rw [h2]
      rfl

theorem fSum_flat3 (H W : Nat) (e : Nat → Nat → Nat → F) :
    fSum (2 * (H * W)) (fun k => e (k / (H * W)) (k % (H * W) / W) (k % (H * W) % W))
      = fSum 2 (fun u => fSum H (fun y => fSum W (e u y))) :=
  calc fSum (2 * (H * W)) (fun k => e (k / (H * W)) (k % (H * W) / W) (k % (H * W) % W))
      = fSum 2 (fun u => fSum (H * W) (fun r => e u (r / W) (r % W))) :=
        fSum_mul_decode 2 (H * W) (fun u r => e u (r / W) (r % W))
    _ = fSum 2 (fun u => fSum H (fun y => fSum W (e u y))) :=
        fSum_congrOn (fun u _ => fSum_mul_decode H W (e u))

theorem nsum_congrOn {n : Nat} {f g : Nat → Nat} (h : ∀ k < n, f k = g k) :
    nsum n f = nsum n g := by
  induction n with
  | zero => rfl
  | succ n ih =>
      simp only [nsum]
      rw [ih (fun k hk => h k (Nat.lt_succ_of_lt hk)), h n (Nat.lt_succ_self n)]

theorem nsum_add (a b : Nat) (f : Nat → Nat) :
    nsum (a + b) f = nsum a f + nsum b (fun j => f (a + j)) := by
  induction b with
  | zero => simp [nsum]
  | succ b ih =>
      rw [Nat.add_succ]
      simp only [nsum]
      rw [ih, Nat.add_assoc]

theorem nsum_mul_decode (m n : Nat) (g : Nat → Nat → Nat) :
    nsum (m * n) (fun k => g (k / n) (k % n)) = nsum m (fun i => nsum n (g i)) := by
  induction m with
  | zero => simp [nsum]
  | succ m ih =>
      rw [Nat.succ_mul, nsum_add, ih]
      have h2 : nsum n (fun j => g ((m * n + j) / n) ((m * n + j) % n)) = nsum n (g m) := by
        refine nsum_congrOn (fun j hj => ?_)
        have hn : 0 < n := lt_of_le_of_lt (Nat.zero_le j) hj
        have hd : (m * n + j) / n = m := by
          rw [Nat.add_comm, Nat.mul_comm, Nat.add_mul_div_left _ _ hn,
            Nat.div_eq_of_lt hj, Nat.zero_add]
        have hm : (m * n + j) % n = j := by
          rw [Nat.add_comm, Nat.mul_comm, Nat.add_mul_mod_self_left, Nat.mod_eq_of_lt hj]
        rw [hd, hm]
      rw [h2]
      rfl

theorem nsum_flat3 (H W : Nat) (e : Nat → Nat → Nat → Nat) :
    nsum (2 * (H * W)) (fun k => e (k / (H * W)) (k % (H * W) / W) (k % (H * W) % W))
      = nsum 2 (fun u => nsum H (fun y => nsum W (e u y))) :=
  calc nsum (2 * (H * W)) (fun k => e (k / (H * W)) (k % (H * W) / W) (k % (H * W) % W))
      = nsum 2 (fun u => nsum (H * W) (fun r => e u (r / W) (r % W))) :=
        nsum_mul_decode 2 (H * W) (fun u r => e u (r / W) (r % W))
    _ = nsum 2 (fun u => nsum H (fun y => nsum W (e u y))) :=
        nsum_congrOn (fun u _ => nsum_mul_decode H W (e u))

theorem nsum_const_one (n : Nat) : nsum n (fun _ => 1) = n := by
  induction n with
  | zero => rfl
  | succ n ih => simp [nsum, ih]

/- ------------------------------------------------------------------ -/
/- Claim theorems.                                                    -/
/- ------------------------------------------------------------------ -/

/-- Claim C1: whenever the ground truth passes the not-all-NaN assertion, the
dense UV regression loss returns, for every batch/class entry, exactly the
reference computation of the spec: zero out both tensors at ground-truth NaN
positions, apply the elementwise base loss, sum over the spatial/coordinate
dimensions and divide by (count of valid elements + 1); the result is the
`(batch, class)` table of these values. -/
theorem dense_uv_loss_matches_spec (B C H W : Nat) (ℓ : ℚ → ℚ → ℚ)
    (uv_hat uv : Nat → Nat → Nat → Nat → Nat → F)
    (h : allNaN B C H W uv = false) :
    balanced_normalized_uv_loss B C H W ℓ uv_hat uv
        = Except.ok (balanced_value H W ℓ uv_hat uv)
    ∧ ∀ b c, balanced_value H W ℓ uv_hat uv b c = spec_dense_uv_loss H W ℓ uv_hat uv b c := by
  constructor
  · simp [balanced_normalized_uv_loss, h]
  · intro b c
    refine congrArg₂ fDiv ?_ (congrArg (fun v => v + 1) ?_)
    · exact fSum_flat3 H W (fun u y x =>
        liftLoss ℓ (if (uv b c u y x).isNone then some 0 else uv_hat b c u y x)
          (if (uv b c u y x).isNone then some 0 else uv b c u y x))
    · exact nsum_flat3 H W (fun u y x => if (uv b c u y x).isNone then 0 else 1)

/-- Witness for C1 at a concrete input. -/
theorem dense_uv_loss_matches_spec_witness :
    allNaN 1 1 1 1 (fun _ _ _ _ _ => some 0) = false
    ∧ (balanced_normalized_uv_loss 1 1 1 1 sqLoss (fun _ _ _ _ _ => some 2)
          (fun _ _ _ _ _ => some 0)
        = Except.ok (balanced_value 1 1 sqLoss (fun _ _ _ _ _ => some 2) (fun _ _ _ _ _ => some 0))
      ∧ ∀ b c, balanced_value 1 1 sqLoss (fun _ _ _ _ _ => some 2) (fun _ _ _ _ _ => some 0) b c
          = spec_dense_uv_loss 1 1 sqLoss (fun _ _ _ _ _ => some 2) (fun _ _ _ _ _ => some 0) b c) :=
  ⟨by decide, dense_uv_loss_matches_spec 1 1 1 1 sqLoss _ _ (by decide)⟩

/-- Claim C8: when the ground truth contains no invalid (NaN) marker, the
dense UV regression loss equals the plain elementwise loss applied to the
unmodified inputs (summed and divided by the all-valid denominator
`2 * H * W + 1`) — the masking step zeroes nothing out. -/
theorem dense_uv_loss_no_nan (B C H W : Nat) (ℓ : ℚ → ℚ → ℚ)
    (uv_hat uv : Nat → Nat → Nat → Nat → Nat → F)
    (hB : 0 < B) (hC : 0 < C) (hH : 0 < H) (hW : 0 < W)
    (hval : ∀ b < B, ∀ c < C, ∀ u < 2, ∀ y < H, ∀ x < W, uv b c u y x ≠ none) :
    balanced_normalized_uv_loss B C H W ℓ uv_hat uv
        = Except.ok (balanced_value H W ℓ uv_hat uv)
    ∧ ∀ b < B, ∀ c < C,
        balanced_value H W ℓ uv_hat uv b c = spec_plain_uv_loss H W ℓ uv_hat uv b c := by
  have hA : allNaN B C H W uv = false := by
    cases hcase : allNaN B C H W uv
    · rfl
    · exfalso
      rw [allNaN] at hcase
      simp only [List.all_eq_true, List.mem_range] at hcase
      exact hval 0 hB 0 hC 0 (by norm_num) 0 hH 0 hW
        (Option.isNone_iff_eq_none.mp (hcase 0 hB 0 hC 0 (by norm_num) 0 hH 0 hW))
  constructor
  · simp [balanced_normalized_uv_loss, hA]
  · intro b hb c hc
    have hmask : ∀ k < 2 * (H * W), (flatIdx H W uv b c k).isNone = false := by
      intro k hk
      have hHW : 0 < H * W := Nat.mul_pos hH hW
      have hu : k / (H * W) < 2 := (Nat.div_lt_iff_lt_mul hHW).mpr hk
      have hy : k % (H * W) / W < H :=
        (Nat.div_lt_iff_lt_mul hW).mpr (Nat.mod_lt _ hHW)
      have hx : k % (H * W) % W < W := Nat.mod_lt _ hW
      rcases hcase : uv b c (k / (H * W)) (k % (H * W) / W) (k % (H * W) % W) with _ | v
      · exact absurd hcase (hval b hb c hc _ hu _ hy _ hx)
      · unfold flatIdx
        rw [hcase]
        rfl
    refine congrArg₂ fDiv ?_ (congrArg (fun v => v + 1) ?_)
    · calc
        fSum (2 * (H * W)) (fun k =>
            liftLoss ℓ
              (if (flatIdx H W uv b c k).isNone then some 0 else flatIdx H W uv_hat b c k)
              (if (flatIdx H W uv b c k).isNone then some 0 else flatIdx H W uv b c k))
          = fSum (2 * (H * W)) (fun k =>
              liftLoss ℓ (flatIdx H W uv_hat b c k) (flatIdx H W uv b c k)) := by
            refine fSum_congrOn (fun k hk => ?_)
            rw [hmask k hk]
            simp
        _ = fSum 2 (fun u => fSum H (fun y => fSum W (fun x =>
              liftLoss ℓ (uv_hat b c u y x) (uv b c u y x)))) :=
            fSum_flat3 H W (fun u y x => liftLoss ℓ (uv_hat b c u y x) (uv b c u y x))
    · calc
        nsum (2 * (H * W)) (fun k => if (flatIdx H W uv b c k).isNone then 0 else 1)
          = nsum (2 * (H * W)) (fun _ => 1) := by
            refine nsum_congrOn (fun k hk => ?_)
            rw [hmask k hk]
            simp
        _ = 2 * (H * W) := nsum_const_one _

/-- Witness for C8 at a concrete input. -/
theorem dense_uv_loss_no_nan_witness :
    (0 < 1 ∧ (∀ b < 1, ∀ c < 1, ∀ u < 2, ∀ y < 1, ∀ x < 1,
        (fun _ _ _ _ _ => (some 3 : F)) b c u y x ≠ none))
    ∧ (balanced_normalized_uv_loss 1 1 1 1 sqLoss (fun _ _ _ _ _ => some 2)
          (fun _ _ _ _ _ => some 3)
        = Except.ok (balanced_value 1 1 sqLoss (fun _ _ _ _ _ => some 2) (fun _ _ _ _ _ => some 3))
      ∧ ∀ b < 1, ∀ c < 1,
          balanced_value 1 1 sqLoss (fun _ _ _ _ _ => some 2) (fun _ _ _ _ _ => some 3) b c
            = spec_plain_uv_loss 1 1 sqLoss (fun _ _ _ _ _ => some 2) (fun _ _ _ _ _ => some 3) b c) :=
  ⟨⟨Nat.one_pos, by intros; simp⟩,
    dense_uv_loss_no_nan 1 1 1 1 sqLoss _ _ Nat.one_pos Nat.one_pos Nat.one_pos Nat.one_pos
      (by intros; simp)⟩

/-- Claim C10: the dense UV regression loss never depends on prediction
values at positions where the ground truth is the NaN marker: two predicted
maps agreeing at every valid ground-truth position produce identical per-entry
results (and the all-NaN assertion, which looks only at the ground truth,
behaves identically). -/
theorem dense_uv_loss_ignores_invalid (B C H W : Nat) (ℓ : ℚ → ℚ → ℚ)
    (uv uv_hat1 uv_hat2 : Nat → Nat → Nat → Nat → Nat → F)
    (hagree : ∀ b < B, ∀ c < C, ∀ u < 2, ∀ y < H, ∀ x < W,
        uv b c u y x ≠ none → uv_hat1 b c u y x = uv_hat2 b c u y x) :
    (allNaN B C H W uv = true →
        balanced_normalized_uv_loss B C H W ℓ uv_hat1 uv
          = balanced_normalized_uv_loss B C H W ℓ uv_hat2 uv)
    ∧ ∀ b < B, ∀ c < C,
        balanced_value H W ℓ uv_hat1 uv b c = balanced_value H W ℓ uv_hat2 uv b c := by
  constructor
  · intro hA
    simp [balanced_normalized_uv_loss, hA]
  · intro b hb c hc
    refine congrArg₂ fDiv ?_ rfl
    refine fSum_congrOn (fun k hk => ?_)
    have hHW : 0 < H * W := by
      rcases Nat.eq_zero_or_pos (H * W) with h0 | h0
      · rw [h0] at hk
        simp at hk
      · exact h0
    have hW0 : 0 < W := by
      rcases Nat.eq_zero_or_pos W with h0 | h0
      · rw [h0, Nat.mul_zero] at hHW
        exact absurd hHW (lt_irrefl 0)
      · exact h0
    have hu : k / (H * W) < 2 := (Nat.div_lt_iff_lt_mul hHW).mpr hk
    have hy : k % (H * W) / W < H :=
      (Nat.div_lt_iff_lt_mul hW0).mpr (Nat.mod_lt _ hHW)
    have hx : k % (H * W) % W < W := Nat.mod_lt _ hW0
    show liftLoss ℓ
        (if (flatIdx H W uv b c k).isNone = true then some 0 else flatIdx H W uv_hat1 b c k)
        (if (flatIdx H W uv b c k).isNone = true then some 0 else flatIdx H W uv b c k)
      = liftLoss ℓ
        (if (flatIdx H W uv b c k).isNone = true then some 0 else flatIdx H W uv_hat2 b c k)
        (if (flatIdx H W uv b c k).isNone = true then some 0 else flatIdx H W uv b c k)
    rcases hcase : uv b c (k / (H * W)) (k % (H * W) / W) (k % (H * W) % W) with _ | v
    · unfold flatIdx
      rw [hcase]
      rfl
    · have hne : uv b c (k / (H * W)) (k % (H * W) / W) (k % (H * W) % W) ≠ none := by
        rw [hcase]
        exact Option.some_ne_none v
      have heq := hagree b hb c hc _ hu _ hy _ hx hne
      unfold flatIdx
      rw [heq]

/-- Witness for C10 at a concrete input: the two predictions differ only at
the invalid ground-truth position. -/
theorem dense_uv_loss_ignores_invalid_witness :
    (∀ b < 1, ∀ c < 1, ∀ u < 2, ∀ y < 1, ∀ x < 1,
        (fun _ _ (u : Nat) _ _ => if u = 0 then (some 0 : F) else none) b c u y x ≠ none →
          (fun _ _ _ _ _ => (some 7 : F)) b c u y x
            = (fun _ _ (u : Nat) _ _ => if u = 0 then (some 7 : F) else some 9) b c u y x)
    ∧ ((allNaN 1 1 1 1 (fun _ _ u _ _ => if u = 0 then some 0 else none) = true →
        balanced_normalized_uv_loss 1 1 1 1 sqLoss (fun _ _ _ _ _ => some 7)
            (fun _ _ u _ _ => if u = 0 then some 0 else none)
          = balanced_normalized_uv_loss 1 1 1 1 sqLoss
              (fun _ _ u _ _ => if u = 0 then some 7 else some 9)
              (fun _ _ u _ _ => if u = 0 then some 0 else none))
      ∧ ∀ b < 1, ∀ c < 1,
          balanced_value 1 1 sqLoss (fun _ _ _ _ _ => some 7)
              (fun _ _ u _ _ => if u = 0 then some 0 else none) b c
            = balanced_value 1 1 sqLoss (fun _ _ u _ _ => if u = 0 then some 7 else some 9)
                (fun _ _ u _ _ => if u = 0 then some 0 else none) b c) := by
  have h : ∀ b < 1, ∀ c < 1, ∀ u < 2, ∀ y < 1, ∀ x < 1,
      (fun _ _ (u : Nat) _ _ => if u = 0 then (some 0 : F) else none) b c u y x ≠ none →
        (fun _ _ _ _ _ => (some 7 : F)) b c u y x
          = (fun _ _ (u : Nat) _ _ => if u = 0 then (some 7 : F) else some 9) b c u y x := by
    intro b _ c _ u _ y _ x _ hne
    by_cases hu : u = 0
    · simp [hu]
    · simp [hu] at hne
  exact ⟨h, dense_uv_loss_ignores_invalid 1 1 1 1 sqLoss _ _ _ h⟩

/-- Claim C3 counterexample: with one in-range and one out-of-range landmark
in a class, the code normalizes by the total element count `2 * N_c` (here
`4`, giving `1/2`), not by (count of valid elements + 1) as the claim states
(here `2 + 1 = 3`, giving `2/3`), and the two disagree. -/
theorem landmark_loss_normalization_cex :
    landmark_loss_value 1 2 2 exUV0 exLM3 exTable3 sqLoss 0 0 = some (1 / 2)
    ∧ claimed_landmark_loss 1 2 2 exUV0 exLM3 exTable3 sqLoss 0 0 = some (2 / 3)
    ∧ some ((1 : ℚ) / 2) ≠ some ((2 : ℚ) / 3) := by
  refine ⟨?_, ?_, by norm_num⟩
  · norm_num [landmark_loss_value, exUV0, exLM3, exTable3, sqLoss, classStart, classCount,
      classVals, lm_class_allOutside, outsideB, norm_lm, gsample, fSum, fAdd, fDiv, liftLoss,
      List.range_succ]
  · norm_num [claimed_landmark_loss, exUV0, exLM3, exTable3, sqLoss, classStart, classCount,
      classVals, lm_class_allOutside, outsideB, norm_lm, gsample, fSum, fAdd, fDiv, liftLoss,
      nsum, List.range_succ]

/-- Claim C3 as amended: out-of-range landmarks contribute zeroed values to
both prediction and target before the elementwise base loss is applied, and
the per-class value is the plain mean over the landmark and coordinate
dimensions (the summed elementwise losses divided by `2 * N_c`), with no
valid-count renormalization. -/
theorem landmark_loss_masked_mean (B H W : Nat) (uv : Nat → Nat → Nat → Nat → Nat → F)
    (lm : Nat → Nat → ℚ × ℚ) (lmuv : List LmUV) (ℓ : ℚ → ℚ → ℚ) (b c : Nat) :
    landmark_loss_value B H W uv lm lmuv ℓ b c = amended_landmark_loss B H W uv lm lmuv ℓ b c := by
  unfold landmark_loss_value amended_landmark_loss
  by_cases hc : c < lmuv.length
  · rw [if_pos hc, if_pos hc]
    by_cases hall : lm_class_allOutside B H W lm (classStart lmuv c) (classCount lmuv c) = true
    · rw [if_pos hall, if_pos hall]
    · rw [if_neg hall, if_neg hall]
      refine congrArg₂ fDiv ?_ (Nat.mul_comm _ 2)
      refine fSum_congrOn (fun n hn => ?_)
      by_cases ho : outsideB (norm_lm H W (lm b (classStart lmuv c + n))) = true
      · simp [ho, fSum, fAdd_zero_left]
      · simp [ho, fSum, fAdd_zero_left]
  · rw [if_neg hc, if_neg hc]

/-- Claim C5: when every landmark of a class is out of the normalized range
(for every batch element) and the prediction is NaN-free, the sparse
landmark-at-UV loss raises no exception and that class entry is exactly the
untouched zero initialization. -/
theorem landmark_loss_all_outside_zero (B H W : Nat)
    (uv : Nat → Nat → Nat → Nat → Nat → F) (lm : Nat → Nat → ℚ × ℚ)
    (lmuv : List LmUV) (ℓ : ℚ → ℚ → ℚ) (c : Nat)
    (hn : anyNaN B lmuv.length H W uv = false)
    (hc : c < lmuv.length)
    (hout : ∀ b < B, ∀ n < classCount lmuv c,
        outsideB (norm_lm H W (lm b (classStart lmuv c + n))) = true) :
    landmark_uv_loss B H W uv lm lmuv ℓ = Except.ok (landmark_loss_value B H W uv lm lmuv ℓ)
    ∧ ∀ b, landmark_loss_value B H W uv lm lmuv ℓ b c = some 0 := by
  constructor
  · simp [landmark_uv_loss, hn]
  · intro b
    have hall : lm_class_allOutside B H W lm (classStart lmuv c) (classCount lmuv c) = true := by
      rw [lm_class_allOutside]
      simp only [List.all_eq_true, List.mem_range]
      exact fun b hb n hnn => hout b hb n hnn
    unfold landmark_loss_value
    rw [if_pos hc, if_pos hall]

/-- Witness for C5 at a concrete input: a single class whose only landmark
normalizes to `(-11, -11)`, outside `[-1, 1]`. -/
theorem landmark_loss_all_outside_zero_witness :
    (anyNaN 1 exTable0.length 2 2 exUV0 = false
      ∧ 0 < exTable0.length
      ∧ (∀ b < 1, ∀ n < classCount exTable0 0,
          outsideB (norm_lm 2 2 (exLMOut b (classStart exTable0 0 + n))) = true))
    ∧ (landmark_uv_loss 1 2 2 exUV0 exLMOut exTable0 sqLoss
          = Except.ok (landmark_loss_value 1 2 2 exUV0 exLMOut exTable0 sqLoss)
      ∧ ∀ b, landmark_loss_value 1 2 2 exUV0 exLMOut exTable0 sqLoss b 0 = some 0) :=
  ⟨⟨by decide, by decide,
      by intro b hb n hn; norm_num [exLMOut, outsideB, norm_lm]⟩,
    landmark_loss_all_outside_zero 1 2 2 exUV0 exLMOut exTable0 sqLoss 0
      (by decide) (by decide)
      (by intro b hb n hn; norm_num [exLMOut, outsideB, norm_lm])⟩

/-- Claim C6 counterexample: the assertion of the sparse landmark-at-UV loss
does not inspect the ground-truth UV values.  A call whose ground-truth table
contains the invalid marker (but whose prediction is NaN-free) succeeds, and
a call whose ground truth is NaN-free but whose prediction contains NaN fails
the assertion — both contradicting the claim. -/
theorem landmark_loss_assert_cex :
    (classVals exTableN 0 0).1 = none
    ∧ (landmark_uv_loss 1 2 2 exUV0 exLM0 exTableN sqLoss).isOk = true
    ∧ exUVN 0 0 0 0 0 = none
    ∧ (landmark_uv_loss 1 2 2 exUVN exLM0 exTable0 sqLoss).isOk = false := by
  refine ⟨rfl, by decide, rfl, by decide⟩

/-- Claim C6 as amended: the assertion validates the *predicted*
correspondence-map input: the sparse landmark-at-UV loss fails its assertion
exactly when the predicted uv map contains an invalid (NaN) value at some
in-range position, independently of the ground-truth UV values. -/
theorem landmark_loss_assert_checks_prediction (B H W : Nat)
    (uv : Nat → Nat → Nat → Nat → Nat → F) (lm : Nat → Nat → ℚ × ℚ)
    (lmuv : List LmUV) (ℓ : ℚ → ℚ → ℚ) :
    (∃ e, landmark_uv_loss B H W uv lm lmuv ℓ = Except.error e)
      ↔ ∃ b < B, ∃ c < lmuv.length, ∃ u < 2, ∃ y < H, ∃ x < W, uv b c u y x = none := by
  unfold landmark_uv_loss
  cases h : anyNaN B lmuv.length H W uv
  · rw [if_neg Bool.false_ne_true]
    constructor
    · intro he
      obtain ⟨e, he⟩ := he
      exact Except.noConfusion he
    · intro hex
      obtain ⟨b, hb, c, hc, u, hu, y, hy, x, hx, hnone⟩ := hex
      have htrue : anyNaN B lmuv.length H W uv = true := by
        rw [anyNaN]
        simp only [List.any_eq_true, List.mem_range]
        exact ⟨b, hb, c, hc, u, hu, y, hy, x, hx, Option.isNone_iff_eq_none.mpr hnone⟩
      rw [h] at htrue
      exact absurd htrue Bool.false_ne_true
  · rw [if_pos rfl]
    constructor
    · intro _
      rw [anyNaN] at h
      simp only [List.any_eq_true, List.mem_range] at h
      obtain ⟨b, hb, c, hc, u, hu, y, hy, x, hx, hnone⟩ := h
      exact ⟨b, hb, c, hc, u, hu, y, hy, x, hx, Option.isNone_iff_eq_none.mp hnone⟩
    · intro _
      exact ⟨_, rfl⟩

/-- Claim C2: under the loss-weight assertion of `forward`, the composed
objective follows the mode formulas: in dense mode the total loss is
`weight_seg * seg + (weight_uv * (reg + lm) / 2 + weight_tv * tv)`, in sparse
mode `weight_seg * seg + (weight_uv * lm + weight_tv * tv)`; zero-weighted
terms are skipped, which leaves the formulas intact since their weight
multiplies them by zero. -/
theorem forward_loss_composition (lb lu lt bv rv lv tv : ℚ)
    (h : ¬(lb = 0 ∧ lu = 0 ∧ lt = 0)) :
    forward_loss "dense" lb lu lt bv rv lv tv
        = Except.ok (lb * bv + (lu * (rv + lv) / 2 + lt * tv))
    ∧ forward_loss "sparse" lb lu lt bv rv lv tv
        = Except.ok (lb * bv + (lu * lv + lt * tv)) := by
  by_cases hb : lb = 0 <;> by_cases hu : lu = 0 <;> by_cases ht : lt = 0
  · exact absurd ⟨hb, hu, ht⟩ h
  all_goals constructor
  all_goals simp [forward_loss, if_neg h, hb, hu, ht]

/-- Witness for C2 at concrete weights and per-loss values. -/
theorem forward_loss_composition_witness :
    ¬((3 : ℚ) = 0 ∧ (5 : ℚ) = 0 ∧ (7 : ℚ) = 0)
    ∧ (forward_loss "dense" 3 5 7 11 13 17 19
          = Except.ok (3 * 11 + (5 * (13 + 17) / 2 + 7 * 19))
      ∧ forward_loss "sparse" 3 5 7 11 13 17 19
          = Except.ok (3 * 11 + (5 * 17 + 7 * 19))) :=
  ⟨by norm_num, forward_loss_composition 3 5 7 11 13 17 19 (by norm_num)⟩

/-- Claim C7: for every supervision string other than the two recognized
modes, the loss composition of the epoch driver fails fatally (the unassigned
`uv_loss` aborts the run) instead of silently producing a loss. -/
theorem forward_unknown_supervision (s : String) (lb lu lt bv rv lv tv : ℚ)
    (hd : s ≠ "dense") (hs : s ≠ "sparse") :
    ∃ e, forward_loss s lb lu lt bv rv lv tv = Except.error e := by
  unfold forward_loss
  by_cases hz : lb = 0 ∧ lu = 0 ∧ lt = 0
  · rw [if_pos hz]
    exact ⟨_, rfl⟩
  · rw [if_neg hz, if_neg hd, if_neg hs]
    exact ⟨_, rfl⟩

/-- Witness for C7 at a concrete unknown supervision string. -/
theorem forward_unknown_supervision_witness :
    ("weak" ≠ "dense" ∧ "weak" ≠ "sparse")
    ∧ ∃ e, forward_loss "weak" 1 1 1 0 0 0 0 = Except.error e :=
  ⟨⟨by decide, by decide⟩,
    forward_unknown_supervision "weak" 1 1 1 0 0 0 0 (by decide) (by decide)⟩

/-- Claim C4: the total-variation loss equals the reference computation of
the spec (gradient, norm over the gradient-direction axis, mean over the UV
axis, square, zero outside the mask, sum spatially, divide by
(masked-pixel count + 1)); in particular a class with an all-false mask gets
exactly zero.  The gradient embedding represents `torch.gradient` for
spatial sizes of at least 2 (smaller sizes raise in the source). -/
theorem total_variation_matches_spec (H W : Nat)
    (uv : Nat → Nat → Nat → Nat → Nat → ℝ) (mask : Nat → Nat → Nat → Nat → Bool)
    (b c : Nat) (hH : 2 ≤ H) (hW : 2 ≤ W) :
    total_variation H W uv mask b c = spec_total_variation H W uv mask b c
    ∧ ((∀ y < H, ∀ x < W, mask b c y x = false) →
        total_variation H W uv mask b c = 0) := by
  constructor
  · simp only [total_variation, spec_total_variation]
    congr 1
    refine Finset.sum_congr rfl (fun y hy => Finset.sum_congr rfl (fun x hx => ?_))
    by_cases hm : mask b c y x = true
    · simp [hm]
    · simp [hm]
  · intro hmask
    simp only [total_variation]
    rw [div_eq_zero_iff]
    left
    refine Finset.sum_eq_zero (fun y hy => Finset.sum_eq_zero (fun x hx => ?_))
    rw [Finset.mem_range] at hy hx
    rw [hmask y hy x hx]
    simp

/-- Witness for C4 at a concrete input with an all-false mask. -/
theorem total_variation_matches_spec_witness :
    (2 ≤ 2
      ∧ (∀ y < 2, ∀ x < 2, (fun _ _ _ _ => false) 0 0 y x = false))
    ∧ (total_variation 2 2 (fun _ _ _ _ _ => 0) (fun _ _ _ _ => false) 0 0
          = spec_total_variation 2 2 (fun _ _ _ _ _ => 0) (fun _ _ _ _ => false) 0 0
      ∧ total_variation 2 2 (fun _ _ _ _ _ => 0) (fun _ _ _ _ => false) 0 0 = 0) :=
  ⟨⟨le_refl 2, fun _ _ _ _ => rfl⟩,
    ⟨(total_variation_matches_spec 2 2 _ _ 0 0 (le_refl 2) (le_refl 2)).1,
      (total_variation_matches_spec 2 2 _ _ 0 0 (le_refl 2) (le_refl 2)).2
        (fun _ _ _ _ => rfl)⟩⟩

/-- Claim C9: the synthesized heatmap assigns to pixel `(y, x)` of the
channel of landmark `n` the value
`alpha * exp(-(squared euclidean pixel distance) / (2 * std_pixel ^ 2))`;
in particular, with `alpha = 1` and `std_pixel = 1`, the value at the
landmark's exact pixel is `1` and the value one pixel away is `exp(-1/2)`. -/
theorem heatmap_synthesis (H W : Nat) (lm : Nat → Nat → ℝ × ℝ) (alpha std : ℝ)
    (b n y x : Nat) (hy : y < H) (hx : x < W) :
    heatmap_gt W lm alpha std b n y x
        = alpha * Real.exp (-(((x : ℝ) - (lm b n).1) ^ 2 + ((y : ℝ) - (lm b n).2) ^ 2)
            / (2 * std ^ 2))
    ∧ (lm b n = ((x : ℝ), (y : ℝ)) → heatmap_gt W lm 1 1 b n y x = 1)
    ∧ (lm b n = ((x : ℝ) + 1, (y : ℝ)) →
        heatmap_gt W lm 1 1 b n y x = Real.exp (-(1 / 2 : ℝ))) := by
  have hW0 : 0 < W := lt_of_le_of_lt (Nat.zero_le x) hx
  have hmod : (y * W + x) % W = x := by
    rw [Nat.mul_comm, Nat.mul_add_mod, Nat.mod_eq_of_lt hx]
  have hdiv : (y * W + x) / W = y := by
    rw [Nat.mul_comm, Nat.mul_add_div hW0, Nat.div_eq_of_lt hx, Nat.add_zero]
  refine ⟨?_, ?_, ?_⟩
  · simp only [heatmap_gt, heatmap_flat, hmod, hdiv]
  · intro hlm
    simp only [heatmap_gt, heatmap_flat, hmod, hdiv, hlm]
    norm_num
  · intro hlm
    simp only [heatmap_gt, heatmap_flat, hmod, hdiv, hlm]
    norm_num

/-- Witness for C9: a 1-by-2 image with the landmark at pixel `(1, 0)`;
the heatmap value at the landmark pixel is `1`, and with the landmark one
pixel to the right of pixel `(1, 0)` the value there is `exp(-1/2)`. -/
theorem heatmap_synthesis_witness :
    heatmap_gt 2 (exHeatLM 1) 1 1 0 0 0 1 = 1
    ∧ heatmap_gt 2 (exHeatLM 2) 1 1 0 0 0 1 = Real.exp (-(1 / 2 : ℝ)) :=
  ⟨(heatmap_synthesis 1 2 (exHeatLM 1) 1 1 0 0 0 1 (by norm_num) (by norm_num)).2.1
      (by norm_num [exHeatLM]),
    (heatmap_synthesis 1 2 (exHeatLM 2) 1 1 0 0 0 1 (by norm_num) (by norm_num)).2.2
      (by norm_num [exHeatLM])⟩

end DenseSeg
